import Mathlib

/-!
Verification development for the loQL service-worker caching engine
(`sw.js`).  The definitions below are a shallow embedding of the source:
pure functions are translated directly; asynchronous IndexedDB access is
modelled by explicit store passing, with read failures injected through a
`readErr` oracle; the network round trip is modelled by its outcome
(`Except NetErr JSValue`); machine details that cannot arise from the
modelled writes are noted at each definition.
-/

set_option autoImplicit false

namespace LoQL

/-- JS/JSON values as they flow through the worker: `null`, booleans,
(integer) numbers, strings, objects as ordered field lists, arrays.
Floating point numbers never matter for the modelled paths, so numbers
are `Int` (timestamps from `Date.now()` and JSON integers). -/
inductive JSValue where
  | null
  | bool (b : Bool)
  | num (n : Int)
  | str (s : String)
  | obj (fields : List (String × JSValue))
  | arr (elems : List JSValue)

/-- Truthiness of a JS value (`if (x)`); objects and arrays are always
truthy, `0`, the empty string, `false` and `null` are falsy. -/
def jsFalsyV : JSValue → Bool
  | .null => true
  | .bool b => !b
  | .num n => n == 0
  | .str s => s == ""
  | .obj _ => false
  | .arr _ => false

mutual
/-- String coercion `String(v)` as performed by `String.prototype.concat`:
`null` gives "null", objects give "[object Object]", arrays join their
elements with commas. -/
def jsToString : JSValue → String
  | .null => "null"
  | .bool b => if b then "true" else "false"
  | .num n => toString n
  | .str s => s
  | .obj _ => "[object Object]"
  | .arr elems => jsArrayJoin elems

/-- Array.prototype.toString = join(","); a `null` element contributes the
empty string. -/
def jsArrayJoin : List JSValue → String
  | [] => ""
  | .null :: rest => (if rest.isEmpty then "" else ",") ++ jsArrayJoin rest
  | v :: rest => jsToString v ++ (if rest.isEmpty then "" else ",") ++ jsArrayJoin rest
end

/-- Escape of a character inside a JSON string literal (quotes and
backslashes; control characters do not occur in the modelled values). -/
def jsonEscapeChar (c : Char) : String :=
  if c = '"' then "\\\"" else if c = '\\' then "\\\\" else String.singleton c

/-- Escape applied to a whole string. -/
def jsonEscape (s : String) : String :=
  String.join (s.toList.map jsonEscapeChar)

/-- Quoted JSON string literal. -/
def jsonQuote (s : String) : String :=
  "\"" ++ jsonEscape s ++ "\""

mutual
/-- JSON.stringify over the modelled values (no `undefined` occurs in
them, so every field is emitted). -/
def jsonStringify : JSValue → String
  | .null => "null"
  | .bool b => if b then "true" else "false"
  | .num n => toString n
  | .str s => jsonQuote s
  | .obj fields => "\x7b" ++ jsonFields fields ++ "\x7d"
  | .arr elems => "[" ++ jsonElems elems ++ "]"

/-- Comma-separated `"key":value` pairs of an object body. -/
def jsonFields : List (String × JSValue) → String
  | [] => ""
  | (k, v) :: rest =>
      jsonQuote k ++ ":" ++ jsonStringify v ++ (if rest.isEmpty then "" else ",")
        ++ jsonFields rest

/-- Comma-separated elements of an array body. -/
def jsonElems : List JSValue → String
  | [] => ""
  | v :: rest => jsonStringify v ++ (if rest.isEmpty then "" else ",") ++ jsonElems rest
end

/-- Modelled from the spec: the key/value store adapter (`db.js`, §6 of the
design) keeps the `queries` collection as a key-to-value map; modelled as
an ordered association list. The same representation doubles as the field
list of a JS object. -/
abbrev Store := List (String × JSValue)

/-- Modelled from the spec: `get(collection, key) -> value | absent`. Also
used for JS object property lookup. -/
def storeGet : Store → String → Option JSValue
  | [], _ => none
  | (k, v) :: rest, key => if k == key then some v else storeGet rest key

/-- Modelled from the spec: `set(collection, key, value)` overwrites the
value at `key` or appends a new entry. Also models JS property assignment
(insertion order preserved, later writes win). -/
def storeSet : Store → String → JSValue → Store
  | [], key, val => [(key, val)]
  | (k, v) :: rest, key, val =>
      if k == key then (key, val) :: rest else (k, v) :: storeSet rest key val

/-- Modelled from the spec: `setMany(collection, pairs)` sets each pair in
order (a plain multi-set, no merging). -/
def setMany (store : Store) (pairs : List (String × JSValue)) : Store :=
  pairs.foldl (fun s p => storeSet s p.1 p.2) store

/-- Object spread `\x7b...a, ...b\x7d`: fields of `b` written over `a` in
order, later keys winning, insertion order preserved. -/
def objSpread (a b : List (String × JSValue)) : List (String × JSValue) :=
  b.foldl (fun acc p => storeSet acc p.1 p.2) a

/-- Field list of a JS value under spread: non-objects contribute no
string-keyed fields (string index keys are outside the modelled writes,
which only ever spread objects). -/
def objFields : JSValue → List (String × JSValue)
  | .obj f => f
  | _ => []

/-- Service-worker settings loaded from IDB during activation (`settings`
global of `sw.js`); absent options are `none`. -/
structure Settings where
  gqlEndpoints : List String
  cacheExpirationLimit : Option Int
  cacheMethod : Option String
  doNotCacheGlobal : Option (List String)
  doNotCacheCustom : List (String × List String)

/-- Translation of `checkCachedQueryIsFresh` (sw.js:211): returns `true`
when `!cacheExpirationLimit` (undefined or the falsy number 0), otherwise
`Date.now() - lastApiCall < cacheExpirationLimit`. A missing `lastApiCall`
makes the subtraction NaN, and NaN comparisons are false. -/
def checkCachedQueryIsFresh (settings : Settings) (now : Int)
    (lastApiCall : Option Int) : Bool :=
  match settings.cacheExpirationLimit with
  | none => true
  | some limit =>
      if limit == 0 then true
      else
        match lastApiCall with
        | some t => decide (now - t < limit)
        | none => false

/-- GraphQL operation kinds. -/
inductive OperationKind where
  | query
  | mutation
  | subscription

/-- String carried on an `OperationDefinition` AST node (`node.operation`). -/
def opKindString : OperationKind → String
  | .query => "query"
  | .mutation => "mutation"
  | .subscription => "subscription"

/-- Field node of a GraphQL selection set (fragments do not occur in the
claims' inputs). -/
inductive GqlField where
  | mk (name : String) (selections : List GqlField)

/-- Name of a field node. -/
def GqlField.name : GqlField → String
  | .mk n _ => n

/-- AST of a parsed GraphQL document, as delivered by the external parser
collaborator (`parse` of graphql/language): its operation definitions,
each with its outermost selection set. -/
structure Document where
  definitions : List (OperationKind × List GqlField)

/-- Metadata object built by `metaParseAST` (`queryCST` in sw.js:306). -/
structure QueryCST where
  operationType : String
  fields : List String

/-- Enter handler for a `SelectionSet` whose parent is an
`OperationDefinition` (sw.js:316-336): the source iterates over the
selections but every statement of the `forEach` body is commented out, so
the accumulator is returned unchanged and no field name is ever pushed. -/
def visitTopLevelSelectionSet (cst : QueryCST) (selections : List GqlField) : QueryCST :=
  selections.foldl (fun acc _ => acc) cst

/-- Translation of `metaParseAST` (sw.js:302): `visit` enters each
`OperationDefinition` (overwriting `operationType`) and then its
selection set; nested selection sets fall into the empty `else` branch.
The `await get('queries','ROOT_QUERY')` read it performs is accounted for
in `runCachingLogic`. -/
def metaParseAST (doc : Document) : QueryCST :=
  doc.definitions.foldl
    (fun cst d =>
      visitTopLevelSelectionSet { cst with operationType := opKindString d.1 } d.2)
    { operationType := "", fields := [] }

/-- Lookup in the `doNotCacheCustom` configuration object
(`endpoint in settings.doNotCacheCustom` and the subsequent access). -/
def lookupCustom (custom : List (String × List String)) (endpoint : String) :
    Option (List String) :=
  match custom with
  | [] => none
  | (e, fields) :: rest => if e == endpoint then some fields else lookupCustom rest endpoint

/-- Translation of `doNotCacheCheck` (sw.js:347): build the bypass list
(custom entry concatenated with the spread global list when the endpoint
has a custom entry, else the global list alone) and return `true` iff the
nested loops find a metadata field equal to a bypass entry. -/
def doNotCacheCheck (doNotCacheGlobal : List String)
    (doNotCacheCustom : List (String × List String)) (queryCST : QueryCST)
    (endpoint : String) : Bool :=
  let doNotCache :=
    match lookupCustom doNotCacheCustom endpoint with
    | some custom => custom ++ doNotCacheGlobal
    | none => doNotCacheGlobal
  queryCST.fields.any (fun f => doNotCache.contains f)

/-- Guarded bypass decision of sw.js:121: `settings.doNotCacheGlobal && doNotCacheCheck(...) === true`
(a defined array is truthy, even when empty). -/
def bypassCheck (settings : Settings) (metadata : QueryCST) (endpoint : String) : Bool :=
  match settings.doNotCacheGlobal with
  | some global => doNotCacheCheck global settings.doNotCacheCustom metadata endpoint
  | none => false

/-- Hashed cache key of sw.js:142: `ourMD5(query.concat(variables))`, the
hash collaborator applied to the query text with the string-coerced
variables appended. -/
def cacheKey (hash : String → String) (query : String) (vars : JSValue) : String :=
  hash (query ++ jsToString vars)

/-- Failure modes of the network round trip (`fetch` + `response.json()`):
transport failure or a body that does not parse as JSON. -/
inductive NetErr where
  | transportFailure
  | nonJsonBody
  deriving DecidableEq

/-- Errors that can escape `runCachingLogic` to the top-level handler. -/
inductive RunErr where
  /-- Uncaught rejection of an IDB `get` (the `ROOT_QUERY` read inside
  `metaParseAST` has no try/catch around it). -/
  | storeError
  /-- ReferenceError of the bypass branch (sw.js:128): `body` is read
  before its `let body;` declaration on line 140, caught, logged and
  rethrown. -/
  | bodyTDZ
  /-- TypeError thrown by `normalizeResult(data.data)` in
  `executeAndUpdate` when `data` is `undefined` or `null`. -/
  | typeErrorUndefined
  /-- Network error, were the executor ever to rethrow one (it does not). -/
  | net (e : NetErr)

/-- Output of `normalizeResult` (external collaborator): the de-nested
entity objects (each given by its entry list) and the `ROOT_QUERY` patch. -/
structure NormalizedData where
  denestedObjects : List (List (String × JSValue))
  rootQueryObject : List (String × JSValue)

/-- Per-operation environment of one `fetch` event: the loaded settings,
the request endpoint, the hash and normalizer collaborators, the outcome
the network would deliver for this operation, the current time, and an
oracle saying which IDB reads reject (`StoreError`). -/
structure RunEnv where
  settings : Settings
  endpoint : String
  hash : String → String
  normalize : Option JSValue → NormalizedData
  fetchResult : Except NetErr JSValue
  now : Int
  readErr : String → Bool

/-- Translation of `checkQueryExists` (sw.js:200): an IDB read failure is
caught and only logged, so the caller sees `undefined`. -/
def checkQueryExists (env : RunEnv) (store : Store) (key : String) : Option JSValue :=
  if env.readErr key then none else storeGet store key

/-- Property access `v.lastApiCall` as fed to `checkCachedQueryIsFresh`:
only a numeric field gives a timestamp; anything else behaves as the NaN
branch (this code only ever writes `Date.now()` numbers there). -/
def lastApiCallOf : JSValue → Option Int
  | .obj f =>
      match storeGet f "lastApiCall" with
      | some (.num n) => some n
      | _ => none
  | _ => none

/-- Translation of `executeQuery` (sw.js:225): a successful fetch with a
JSON body resolves to the payload; the catch block logs the error and
falls through, so the function resolves to `undefined` — the error is not
rethrown. The `Except` layer records that rethrowing was available. -/
def executeQuery (fetchResult : Except NetErr JSValue) :
    Except NetErr (Option JSValue) :=
  match fetchResult with
  | Except.ok data => Except.ok (some data)
  | Except.error _ => Except.ok none

/-- Cache record `\x7b data, lastApiCall: Date.now() \x7d` written by
`writeToCache` (sw.js:245). -/
def cacheRecordVal (data : JSValue) (now : Int) : JSValue :=
  JSValue.obj [("data", data), ("lastApiCall", JSValue.num now)]

/-- Translation of `writeToCache` (sw.js:242): a falsy `data` returns
early; otherwise the record `\x7bdata, lastApiCall: Date.now()\x7d` is
stored under the hashed key. -/
def writeToCache (store : Store) (key : String) (data : Option JSValue)
    (now : Int) : Store :=
  match data with
  | none => store
  | some d =>
      if jsFalsyV d then store
      else storeSet store key (cacheRecordVal d now)

/-- First entries `Object.entries(e)[0]` of the de-nested entity objects
(sw.js:255); an empty object would make `setMany` throw on destructuring
and never arises from the normalizer. -/
def arrayKeyVals (nd : NormalizedData) : List (String × JSValue) :=
  nd.denestedObjects.filterMap List.head?

/-- Translation of `writeToNormalizedCache` (sw.js:254): the entities are
written with `setMany` (a plain per-key set, no merging), then
`ROOT_QUERY` is created from the patch if absent, or replaced by the
spread `\x7b...rootQuery, ...patch\x7d` if present. -/
def writeToNormalizedCache (store : Store) (nd : NormalizedData) : Store :=
  let store1 := setMany store (arrayKeyVals nd)
  match storeGet store1 "ROOT_QUERY" with
  | none => storeSet store1 "ROOT_QUERY" (.obj nd.rootQueryObject)
  | some v => storeSet store1 "ROOT_QUERY" (.obj (objSpread (objFields v) nd.rootQueryObject))

/-- Translation of `executeAndUpdate` (sw.js:275): run the network query
(whose own errors are swallowed into `undefined`), fire `writeToCache`,
then `normalizeResult(data.data)` — a TypeError when `data` is
`undefined`/`null` — and fire `writeToNormalizedCache`; the payload is
returned unchanged. -/
def executeAndUpdate (env : RunEnv) (store : Store) (key : String) :
    Except RunErr (JSValue × Store) :=
  match executeQuery env.fetchResult with
  | Except.error e => Except.error (RunErr.net e)
  | Except.ok dataOpt =>
      let store1 := writeToCache store key dataOpt env.now
      match dataOpt with
      | none => Except.error RunErr.typeErrorUndefined
      | some JSValue.null => Except.error RunErr.typeErrorUndefined
      | some d =>
          let nd := env.normalize (storeGet (objFields d) "data")
          Except.ok (d, writeToNormalizedCache store1 nd)

/-- Value/hash pair returned by `runCachingLogic` to the fetch handler. -/
structure RunOutput where
  data : JSValue
  hashedQuery : String

/-- Miss/stale path of sw.js:162-171: await `executeAndUpdate` and wrap
its payload with the hashed key. -/
def missPath (env : RunEnv) (store : Store) (key : String) :
    Except RunErr (RunOutput × Store) :=
  match executeAndUpdate env store key with
  | Except.ok (d, s2) => Except.ok (⟨d, key⟩, s2)
  | Except.error e => Except.error e

/-- Translation of `runCachingLogic` (sw.js:106): classify the (already
extracted and parsed) operation — whose `metaParseAST` performs an
uncaught `ROOT_QUERY` read — run the guarded bypass check (whose branch
throws on the uninitialized `body`), hash the key, look the record up with
errors swallowed, and serve a truthy fresh record (with a background
refresh under cache-network whose own errors leave the store untouched)
or fall through to the network path. -/
def runCachingLogic (env : RunEnv) (store : Store) (doc : Document)
    (queryText : String) (vars : JSValue) : Except RunErr (RunOutput × Store) :=
  if env.readErr "ROOT_QUERY" then Except.error RunErr.storeError
  else
    let metadata := metaParseAST doc
    if bypassCheck env.settings metadata env.endpoint then Except.error RunErr.bodyTDZ
    else
      let hashedQuery := cacheKey env.hash queryText vars
      match checkQueryExists env store hashedQuery with
      | some cd =>
          if !jsFalsyV cd
              && checkCachedQueryIsFresh env.settings env.now (lastApiCallOf cd) then
            let store2 :=
              if env.settings.cacheMethod == some "cache-network" then
                match executeAndUpdate env store hashedQuery with
                | Except.ok (_, s2) => s2
                | Except.error _ => store
              else store
            Except.ok (⟨cd, hashedQuery⟩, store2)
          else missPath env store hashedQuery
      | none => missPath env store hashedQuery

/-- Response substituted by the fetch listener: either the 200 JSON
response built from the caching logic, or the fail-open pass-through
`fetch(clone)` of the original request. -/
inductive SWResponse where
  | jsonResponse (body : String) (status : Int)
  | passthrough

/-- Translation of `fetchAndGetResponse` (sw.js:80): on success the data
is stringified into a 200 response; any error from the caching pipeline
is caught and answered by a direct network call of the cloned request. -/
def fetchAndGetResponse (env : RunEnv) (store : Store) (doc : Document)
    (queryText : String) (vars : JSValue) : SWResponse :=
  match runCachingLogic env store doc queryText vars with
  | Except.ok (out, _) => SWResponse.jsonResponse (jsonStringify out.data) 200
  | Except.error _ => SWResponse.passthrough

/-- Fetch listener guard of sw.js:79: only requests whose origin+path is a
configured GraphQL endpoint are intercepted. -/
def fetchListener (env : RunEnv) (store : Store) (doc : Document)
    (queryText : String) (vars : JSValue) : Option SWResponse :=
  if env.settings.gqlEndpoints.contains env.endpoint then
    some (fetchAndGetResponse env store doc queryText vars)
  else none

/-! ### Helper lemmas about the store adapter -/

theorem storeGet_storeSet_self (s : Store) (k : String) (v : JSValue) :
    storeGet (storeSet s k v) k = some v := by
  induction s with
  | nil => simp [storeSet, storeGet]
  | cons p rest ih =>
      obtain ⟨a, b⟩ := p
      by_cases h : a = k
      · subst h
        simp [storeSet, storeGet]
      · simp [storeSet, storeGet, beq_iff_eq, h, ih]

theorem storeGet_storeSet_ne (s : Store) (k : String) (v : JSValue) (k' : String)
    (h : k' ≠ k) : storeGet (storeSet s k v) k' = storeGet s k' := by
  have h' : k ≠ k' := Ne.symm h
  induction s with
  | nil => simp [storeSet, storeGet, beq_iff_eq, h']
  | cons p rest ih =>
      obtain ⟨a, b⟩ := p
      by_cases ha : a = k
      · subst ha
        simp [storeSet, storeGet, beq_iff_eq, h']
      · simp [storeSet, storeGet, beq_iff_eq, ha, ih]

theorem storeGet_eq_none_of_not_mem (s : Store) (k : String)
    (h : k ∉ s.map Prod.fst) : storeGet s k = none := by
  induction s with
  | nil => rfl
  | cons p rest ih =>
      obtain ⟨a, b⟩ := p
      simp only [List.map_cons, List.mem_cons, not_or] at h
      have ha : a ≠ k := Ne.symm h.1
      simp [storeGet, beq_iff_eq, ha, ih h.2]

theorem storeGet_objSpread (a b : List (String × JSValue)) (k : String)
    (h : (b.map Prod.fst).Nodup) :
    storeGet (objSpread a b) k = (storeGet b k).or (storeGet a k) := by
  induction b generalizing a with
  | nil => simp [objSpread, storeGet, Option.or]
  | cons p rest ih =>
      obtain ⟨k0, v0⟩ := p
      simp only [List.map_cons, List.nodup_cons] at h
      have step : objSpread a ((k0, v0) :: rest) = objSpread (storeSet a k0 v0) rest := rfl
      rw [step, ih (storeSet a k0 v0) h.2]
      by_cases hk : k = k0
      · subst hk
        have hnone : storeGet rest k = none := storeGet_eq_none_of_not_mem rest k h.1
        simp [storeGet, hnone, storeGet_storeSet_self, Option.or]
      · have hk' : k0 ≠ k := Ne.symm hk
        rw [storeGet_storeSet_ne a k0 v0 k hk]
        simp [storeGet, beq_iff_eq, hk']

theorem storeGet_setMany_of_not_mem (s : Store) (ps : List (String × JSValue))
    (k : String) (h : ∀ p ∈ ps, p.1 ≠ k) :
    storeGet (setMany s ps) k = storeGet s k := by
  induction ps generalizing s with
  | nil => rfl
  | cons p rest ih =>
      have step : setMany s (p :: rest) = setMany (storeSet s p.1 p.2) rest := rfl
      rw [step, ih (storeSet s p.1 p.2) (fun q hq => h q (List.mem_cons_of_mem p hq))]
      exact storeGet_storeSet_ne s p.1 p.2 k
        (fun hh => h p (List.mem_cons_self p rest) hh.symm)

/-! ### Helper lemmas about the classifier -/

theorem visitTopLevelSelectionSet_eq (cst : QueryCST) (sels : List GqlField) :
    visitTopLevelSelectionSet cst sels = cst := by
  induction sels with
  | nil => rfl
  | cons f rest ih => exact ih

theorem metaParseAST_fields_nil (doc : Document) : (metaParseAST doc).fields = [] := by
  unfold metaParseAST
  have aux : ∀ (defs : List (OperationKind × List GqlField)) (cst : QueryCST),
      cst.fields = [] →
      (defs.foldl
        (fun cst d =>
          visitTopLevelSelectionSet { cst with operationType := opKindString d.1 } d.2)
        cst).fields = [] := by
    intro defs
    induction defs with
    | nil => intro cst h; exact h
    | cons d rest ih =>
        intro cst h
        simp only [List.foldl_cons]
        apply ih
        rw [visitTopLevelSelectionSet_eq]
        exact h
  exact aux _ _ rfl

theorem doNotCacheCheck_of_fields_nil (g : List String)
    (c : List (String × List String)) (m : QueryCST) (ep : String)
    (h : m.fields = []) : doNotCacheCheck g c m ep = false := by
  unfold doNotCacheCheck
  rw [h]
  rfl

theorem bypassCheck_metaParseAST (s : Settings) (doc : Document) (ep : String) :
    bypassCheck s (metaParseAST doc) ep = false := by
  unfold bypassCheck
  cases hg : s.doNotCacheGlobal with
  | none => rfl
  | some g =>
      exact doNotCacheCheck_of_fields_nil g s.doNotCacheCustom (metaParseAST doc) ep
        (metaParseAST_fields_nil doc)

/-! ### Claim C1 — operation classifier -/

/-- Top-level field names of the first operation definition of a document,
as the spec describes `topLevelFields` (the ordered field names of the
outermost selection set of the operation's root). -/
def specTopLevelFields (doc : Document) : List String :=
  match doc.definitions with
  | [] => []
  | d :: _ => d.2.map GqlField.name

/-- Concrete operation `query \x7b user posts \x7d` used to evaluate the
classifier. -/
def exampleDocC1 : Document :=
  ⟨[(OperationKind.query, [GqlField.mk "user" [], GqlField.mk "posts" []])]⟩

/-- C1: the claim says the classifier's `topLevelFields` is exactly the
ordered field-name sequence of the root selection set. On the operation
`query \x7b user posts \x7d` the code produces the correct operation kind
but an empty field list (the `queryCST.fields.push` call is commented
out), while the spec-level answer is `["user", "posts"]`. -/
theorem metaParseAST_drops_topLevelFields :
    metaParseAST exampleDocC1 = ⟨"query", []⟩
    ∧ specTopLevelFields exampleDocC1 = ["user", "posts"]
    ∧ specTopLevelFields exampleDocC1 ≠ [] := by
  refine ⟨rfl, rfl, ?_⟩
  intro h
  simp [specTopLevelFields, exampleDocC1] at h

/-! ### Claim C4 — network executor error handling -/

/-- C4 counterexample: on a transport failure the executor does not fail
with (or rethrow) the error — its catch block only logs, so the call
resolves normally to `undefined` (`Except.ok none`), which is not the
rethrown `Except.error`. -/
theorem executeQuery_swallows_error_cex :
    executeQuery (Except.error NetErr.transportFailure) = Except.ok none
    ∧ Except.ok (none : Option JSValue) ≠ Except.error NetErr.transportFailure := by
  refine ⟨rfl, ?_⟩
  intro h
  exact Except.noConfusion h

/-- C4 amended: on transport failure or a non-JSON body the executor
catches the error, logs it and returns `undefined` instead of rethrowing;
the failure then surfaces to the top-level handler only indirectly, as the
TypeError thrown when `executeAndUpdate` evaluates `data.data` on the
`undefined` result. -/
theorem executeQuery_swallows_error (env : RunEnv) (store : Store) (key : String)
    (e : NetErr) (hf : env.fetchResult = Except.error e) :
    executeQuery env.fetchResult = Except.ok none
    ∧ executeAndUpdate env store key = Except.error RunErr.typeErrorUndefined := by
  constructor
  · rw [hf]
    rfl
  · unfold executeAndUpdate
    rw [hf]
    rfl

/-- Environment with a failing network transport, used to witness C4. -/
def exEnvC4 : RunEnv :=
  ⟨⟨[], none, none, none, []⟩, "", fun s => s, fun _ => ⟨[], []⟩,
    Except.error NetErr.transportFailure, 0, fun _ => false⟩

/-- Witness for C4's amended theorem at a concrete failing transport. -/
theorem executeQuery_swallows_error_witness :
    executeQuery exEnvC4.fetchResult = Except.ok none
    ∧ executeAndUpdate exEnvC4 [] "k" = Except.error RunErr.typeErrorUndefined :=
  executeQuery_swallows_error exEnvC4 [] "k" NetErr.transportFailure rfl

/-! ### Claim C5 — freshness check -/

/-- C5 counterexample: with `cacheExpirationLimit` configured as `0`
(a representable duration), the code's `!cacheExpirationLimit` test treats
it as absent and reports fresh, while the claim's `now - lastFetchedAt <
cacheExpirationLimit` is false at `now = 5`, `lastFetchedAt = 3`. -/
theorem freshness_zero_limit_cex :
    checkCachedQueryIsFresh ⟨[], some 0, none, none, []⟩ 5 (some 3) = true
    ∧ ¬((5 : Int) - 3 < 0) := by
  exact ⟨rfl, by decide⟩

/-- C5 amended: the freshness check returns true when no
`cacheExpirationLimit` is configured or when the configured limit is the
falsy number 0; for any other configured limit it returns true iff
`now - lastFetchedAt < cacheExpirationLimit`, so with limit 1000 a record
fetched 999 ms ago is fresh and one fetched 1001 ms ago is stale. -/
theorem checkCachedQueryIsFresh_spec (s : Settings) (now t : Int) :
    (s.cacheExpirationLimit = none → checkCachedQueryIsFresh s now (some t) = true)
    ∧ (∀ l : Int, s.cacheExpirationLimit = some l → l ≠ 0 →
        (checkCachedQueryIsFresh s now (some t) = true ↔ now - t < l))
    ∧ (s.cacheExpirationLimit = some 1000 →
        checkCachedQueryIsFresh s now (some (now - 999)) = true
        ∧ checkCachedQueryIsFresh s now (some (now - 1001)) = false) := by
  refine ⟨?_, ?_, ?_⟩
  · intro h
    unfold checkCachedQueryIsFresh
    rw [h]
  · intro l hl hl0
    unfold checkCachedQueryIsFresh
    rw [hl]
    simp [hl0]
  · intro h
    unfold checkCachedQueryIsFresh
    rw [h]
    constructor
    · simp
    · simp

/-- Witness for C5's amended theorem: limit 1000, `now = 2000`, so the
record fetched at 1001 (999 ms ago) is fresh and the record fetched at
999 (1001 ms ago) is stale. -/
theorem checkCachedQueryIsFresh_spec_witness :
    checkCachedQueryIsFresh ⟨[], some 1000, none, none, []⟩ 2000 (some 1001) = true
    ∧ checkCachedQueryIsFresh ⟨[], some 1000, none, none, []⟩ 2000 (some 999) = false := by
  have h := (checkCachedQueryIsFresh_spec ⟨[], some 1000, none, none, []⟩ 2000 0).2.2 rfl
  constructor
  · have := h.1
    simpa using this
  · have := h.2
    simpa using this

/-! ### Claim C9 — cache-key derivation -/

/-- C9: the cache key hashes `query.concat(variables)`; `concat` coerces
its argument to a string, so any two plain-object variable values coerce
to "[object Object]" and collide for a fixed query, and a `null`
variables value contributes the string "null", not the empty string. -/
theorem cacheKey_coercion (hash : String → String) (q : String)
    (f1 f2 : List (String × JSValue)) :
    cacheKey hash q (JSValue.obj f1) = cacheKey hash q (JSValue.obj f2)
    ∧ cacheKey hash q JSValue.null = hash (q ++ "null")
    ∧ jsToString JSValue.null ≠ "" := by
  refine ⟨rfl, rfl, ?_⟩
  intro h
  have hnull : ("null" : String) = "" := h
  exact absurd hnull (by decide)

/-! ### Claim C2 — normalized-entity writes -/

/-- Store holding entity `User:1` with fields `name` and `age`. -/
def exStoreC2 : Store :=
  [("User:1", JSValue.obj [("name", JSValue.str "a"), ("age", JSValue.num 1)])]

/-- Normalized write carrying `User:1` with only the `name` field. -/
def exNdC2 : NormalizedData :=
  ⟨[[("User:1", JSValue.obj [("name", JSValue.str "b")])]], []⟩

/-- C2 counterexample: writing `\x7bUser:1: \x7bname: "b"\x7d\x7d` over a
stored `\x7bUser:1: \x7bname: "a", age: 1\x7d\x7d` replaces the record
wholesale — the resulting entity is `\x7bname: "b"\x7d`, not the shallow
merge `\x7bname: "b", age: 1\x7d` the claim predicts (the `age` field is
lost, because `setMany` is a plain per-key set). -/
theorem entity_write_not_merged_cex :
    storeGet (writeToNormalizedCache exStoreC2 exNdC2) "User:1"
      = some (JSValue.obj [("name", JSValue.str "b")])
    ∧ storeGet (writeToNormalizedCache exStoreC2 exNdC2) "User:1"
      ≠ some (JSValue.obj [("name", JSValue.str "b"), ("age", JSValue.num 1)]) := by
  refine ⟨rfl, ?_⟩
  intro h
  rw [show storeGet (writeToNormalizedCache exStoreC2 exNdC2) "User:1"
      = some (JSValue.obj [("name", JSValue.str "b")]) from rfl] at h
  simp at h

/-- C2 amended: when a response writes an entity whose composite key
already exists in the store, the stored entity is replaced wholesale by
the new write (fields absent from the new write are lost, not preserved);
the entity is still stored once under its composite key. Only the
`ROOT_QUERY` record is shallow-merged. -/
theorem entity_write_replaces (store : Store) (nd : NormalizedData) (k : String)
    (v : JSValue) (h1 : arrayKeyVals nd = [(k, v)]) (h2 : k ≠ "ROOT_QUERY") :
    storeGet (writeToNormalizedCache store nd) k = some v := by
  have hrw : writeToNormalizedCache store nd =
      match storeGet (setMany store (arrayKeyVals nd)) "ROOT_QUERY" with
      | none => storeSet (setMany store (arrayKeyVals nd)) "ROOT_QUERY"
          (.obj nd.rootQueryObject)
      | some v => storeSet (setMany store (arrayKeyVals nd)) "ROOT_QUERY"
          (.obj (objSpread (objFields v) nd.rootQueryObject)) := rfl
  rw [hrw, h1]
  have hone : setMany store [(k, v)] = storeSet store k v := rfl
  rw [hone]
  cases storeGet (storeSet store k v) "ROOT_QUERY" with
  | none =>
      rw [storeGet_storeSet_ne _ _ _ _ h2]
      exact storeGet_storeSet_self store k v
  | some w =>
      rw [storeGet_storeSet_ne _ _ _ _ h2]
      exact storeGet_storeSet_self store k v

/-- Witness for C2's amended theorem: the concrete overwrite of `User:1`. -/
theorem entity_write_replaces_witness :
    storeGet (writeToNormalizedCache exStoreC2 exNdC2) "User:1"
      = some (JSValue.obj [("name", JSValue.str "b")]) :=
  entity_write_replaces exStoreC2 exNdC2 "User:1"
    (JSValue.obj [("name", JSValue.str "b")]) rfl (by decide)

/-! ### Claim C7 — ROOT_QUERY writes -/

/-- C7: every `ROOT_QUERY` write is an additive merge. When the record
exists as an object, the new record is the spread of the patch over it —
per field, the patch value wins when present and the stored value survives
when the patch lacks the field — and when the record is absent it is
created from the patch; it is never replaced wholesale. The hypotheses say
the entity writes of the same response do not collide with the
`ROOT_QUERY` key and the patch (a JS object) has no duplicate keys. -/
theorem rootQuery_write_additive_merge (store : Store) (nd : NormalizedData)
    (hent : ∀ p ∈ arrayKeyVals nd, p.1 ≠ "ROOT_QUERY")
    (hnodup : (nd.rootQueryObject.map Prod.fst).Nodup) :
    (∀ r, storeGet store "ROOT_QUERY" = some (JSValue.obj r) →
        storeGet (writeToNormalizedCache store nd) "ROOT_QUERY"
          = some (JSValue.obj (objSpread r nd.rootQueryObject))
        ∧ ∀ k, storeGet (objSpread r nd.rootQueryObject) k
            = (storeGet nd.rootQueryObject k).or (storeGet r k))
    ∧ (storeGet store "ROOT_QUERY" = none →
        storeGet (writeToNormalizedCache store nd) "ROOT_QUERY"
          = some (JSValue.obj nd.rootQueryObject)) := by
  have hpres : storeGet (setMany store (arrayKeyVals nd)) "ROOT_QUERY"
      = storeGet store "ROOT_QUERY" :=
    storeGet_setMany_of_not_mem store (arrayKeyVals nd) "ROOT_QUERY" hent
  have hrw : writeToNormalizedCache store nd =
      match storeGet (setMany store (arrayKeyVals nd)) "ROOT_QUERY" with
      | none => storeSet (setMany store (arrayKeyVals nd)) "ROOT_QUERY"
          (.obj nd.rootQueryObject)
      | some v => storeSet (setMany store (arrayKeyVals nd)) "ROOT_QUERY"
          (.obj (objSpread (objFields v) nd.rootQueryObject)) := rfl
  constructor
  · intro r hr
    constructor
    · rw [hrw, hpres, hr]
      exact storeGet_storeSet_self _ _ _
    · intro k
      exact storeGet_objSpread r nd.rootQueryObject k hnodup
  · intro hr
    rw [hrw, hpres, hr]
    exact storeGet_storeSet_self _ _ _

/-- Witness for C7 at the spec's own example: `ROOT_QUERY = \x7buser:
ref\x7d` merged with a patch for a different field `posts` yields both
mappings (additive, not replacing). -/
theorem rootQuery_write_additive_merge_witness :
    storeGet
      (writeToNormalizedCache [("ROOT_QUERY", JSValue.obj [("user", JSValue.str "User:1")])]
        ⟨[], [("posts", JSValue.arr [JSValue.str "Post:1"])]⟩) "ROOT_QUERY"
      = some (JSValue.obj (objSpread [("user", JSValue.str "User:1")]
          [("posts", JSValue.arr [JSValue.str "Post:1"])]))
    ∧ storeGet (objSpread [("user", JSValue.str "User:1")]
          [("posts", JSValue.arr [JSValue.str "Post:1"])]) "user"
        = some (JSValue.str "User:1") := by
  have h := (rootQuery_write_additive_merge
    [("ROOT_QUERY", JSValue.obj [("user", JSValue.str "User:1")])]
    ⟨[], [("posts", JSValue.arr [JSValue.str "Post:1"])]⟩
    (by intro p hp; simp [arrayKeyVals] at hp)
    (by simp)).1 [("user", JSValue.str "User:1")] rfl
  refine ⟨h.1, ?_⟩
  rw [h.2 "user"]
  rfl

/-! ### Claim C3 — cache-bypass policy -/

/-- Settings configuring `posts` as a globally uncacheable field. -/
def exSettingsC3 : Settings :=
  ⟨["https://api.example.com/graphql"], none, none, some ["posts"], []⟩

/-- Network payload for the C3 evaluation run. -/
def exPayloadC3 : JSValue := JSValue.obj [("data", JSValue.obj [("posts", JSValue.null)])]

/-- Environment of the C3 evaluation run. -/
def exEnvC3 : RunEnv :=
  ⟨exSettingsC3, "https://api.example.com/graphql", fun s => s, fun _ => ⟨[], []⟩,
    Except.ok exPayloadC3, 100, fun _ => false⟩

/-- Document of the operation `query \x7b posts \x7d`. -/
def exDocC3 : Document := ⟨[(OperationKind.query, [GqlField.mk "posts" []])]⟩

/-- C3: on the operation `query \x7b posts \x7d` with `doNotCacheGlobal =
["posts"]` the claim demands a pure network bypass with no cache read or
write. The code disagrees: `doNotCacheCheck` would return true on the
spec-level metadata, but on the metadata the classifier actually produces
(empty `fields`) it returns false, so the engine takes the full cached
path — the run's final store contains a freshly written cache record for
the operation (a cache write the claim forbids). Were the branch ever
reached, it would throw the modelled ReferenceError instead of fetching. -/
theorem bypass_never_taken :
    doNotCacheCheck ["posts"] [] ⟨"query", ["posts"]⟩ "https://api.example.com/graphql" = true
    ∧ bypassCheck exSettingsC3 (metaParseAST exDocC3) "https://api.example.com/graphql" = false
    ∧ runCachingLogic exEnvC3 [] exDocC3 "query \x7b posts \x7d" JSValue.null
        = Except.ok (⟨exPayloadC3, "query \x7b posts \x7dnull"⟩,
            [("query \x7b posts \x7dnull", cacheRecordVal exPayloadC3 100),
             ("ROOT_QUERY", JSValue.obj [])]) :=
  ⟨rfl, rfl, rfl⟩

/-! ### Claim C6 — fail-open top-level handler -/

/-- C6: for a request to a configured GraphQL endpoint, any error escaping
the caching pipeline makes the top-level handler answer with the direct
pass-through network call of the original (cloned) request instead. -/
theorem pipeline_error_fail_open (env : RunEnv) (store : Store) (doc : Document)
    (qt : String) (vars : JSValue) (e : RunErr)
    (hend : env.settings.gqlEndpoints.contains env.endpoint = true)
    (herr : runCachingLogic env store doc qt vars = Except.error e) :
    fetchListener env store doc qt vars = some SWResponse.passthrough := by
  have hmem : env.endpoint ∈ env.settings.gqlEndpoints := by
    simpa using hend
  simp [fetchListener, fetchAndGetResponse, herr, hmem]

/-- Environment whose `ROOT_QUERY` read rejects, driving the pipeline into
an error, used to witness C6. -/
def exEnvC6 : RunEnv :=
  ⟨⟨["ep"], none, none, none, []⟩, "ep", fun s => s, fun _ => ⟨[], []⟩,
    Except.ok JSValue.null, 0, fun k => k == "ROOT_QUERY"⟩

/-- Witness for C6: the store read inside the classifier rejects and the
listener answers with the pass-through response. -/
theorem pipeline_error_fail_open_witness :
    fetchListener exEnvC6 [] ⟨[]⟩ "q" JSValue.null = some SWResponse.passthrough :=
  pipeline_error_fail_open exEnvC6 [] ⟨[]⟩ "q" JSValue.null RunErr.storeError rfl rfl

/-! ### Claim C8 — store error during lookup -/

/-- C8: when the IDB read of the hashed cache key rejects (`StoreError`
during lookup), `checkQueryExists` swallows the failure, the run falls
through to the miss path, and the caller receives the network payload —
the run completes without any escaping error (hence no unhandled
rejection in the request-handling path). -/
theorem lookup_error_served_from_network (env : RunEnv) (store : Store)
    (doc : Document) (qt : String) (vars : JSValue) (flds : List (String × JSValue))
    (hroot : env.readErr "ROOT_QUERY" = false)
    (hlookup : env.readErr (cacheKey env.hash qt vars) = true)
    (hfetch : env.fetchResult = Except.ok (JSValue.obj flds)) :
    runCachingLogic env store doc qt vars
      = Except.ok (⟨JSValue.obj flds, cacheKey env.hash qt vars⟩,
          writeToNormalizedCache
            (writeToCache store (cacheKey env.hash qt vars)
              (some (JSValue.obj flds)) env.now)
            (env.normalize (storeGet flds "data"))) := by
  unfold runCachingLogic
  rw [hroot]
  simp only [Bool.false_eq_true, if_false, bypassCheck_metaParseAST,
    checkQueryExists, hlookup, if_true, missPath, executeAndUpdate, executeQuery,
    hfetch, objFields]

/-- Environment whose lookup read for the key "qnull" rejects, used to
witness C8. -/
def exEnvC8 : RunEnv :=
  ⟨⟨["ep"], none, none, none, []⟩, "ep", fun s => s, fun _ => ⟨[], []⟩,
    Except.ok (JSValue.obj []), 7, fun k => k == "qnull"⟩

/-- Witness for C8 at a concrete failing lookup. -/
theorem lookup_error_served_from_network_witness :
    runCachingLogic exEnvC8 [] ⟨[]⟩ "q" JSValue.null
      = Except.ok (⟨JSValue.obj [], cacheKey exEnvC8.hash "q" JSValue.null⟩,
          writeToNormalizedCache
            (writeToCache [] (cacheKey exEnvC8.hash "q" JSValue.null)
              (some (JSValue.obj [])) 7)
            (exEnvC8.normalize (storeGet [] "data"))) :=
  lookup_error_served_from_network exEnvC8 [] ⟨[]⟩ "q" JSValue.null [] rfl rfl rfl

/-! ### Claim C10 — cached body vs network body -/

/-- Serialization of a cache record is strictly longer than that of its
payload, so the two JSON bodies can never coincide. -/
theorem jsonStringify_record_ne (p : JSValue) (t : Int) :
    jsonStringify (cacheRecordVal p t) ≠ jsonStringify p := by
  intro h
  have hlen := congrArg String.length h
  rw [show jsonStringify (cacheRecordVal p t)
      = "\x7b" ++ (jsonQuote "data" ++ ":" ++ jsonStringify p ++ ","
          ++ (jsonQuote "lastApiCall" ++ ":" ++ toString t ++ "" ++ "")) ++ "\x7d"
    from rfl] at hlen
  simp only [String.length_append] at hlen
  have h1 : ("\x7b" : String).length = 1 := rfl
  have h2 : (jsonQuote "data").length = 6 := rfl
  have h3 : ((":" : String)).length = 1 := rfl
  have h4 : ((",") : String).length = 1 := rfl
  have h5 : (jsonQuote "lastApiCall").length = 13 := rfl
  have h6 : ("\x7d" : String).length = 1 := rfl
  have h7 : ("" : String).length = 0 := rfl
  omega

/-- C10: with a record stored under the operation's key, a fresh
cache-first hit returns the entire stored cache record (payload wrapped
together with `lastApiCall`) to the handler, while a stale hit or a miss
(empty store) returns the raw network payload; and the stringified record
can never equal the stringified payload, so the cached JSON body differs
from the network-served one even for an identical underlying payload. -/
theorem cache_hit_serves_record (env : RunEnv) (store : Store) (doc : Document)
    (qt : String) (vars : JSValue) (flds : List (String × JSValue)) (t : Int)
    (hm : env.settings.cacheMethod = some "cache-first")
    (hr : ∀ k, env.readErr k = false)
    (hf : env.fetchResult = Except.ok (JSValue.obj flds))
    (hs : storeGet store (cacheKey env.hash qt vars)
        = some (cacheRecordVal (JSValue.obj flds) t)) :
    (checkCachedQueryIsFresh env.settings env.now (some t) = true →
      runCachingLogic env store doc qt vars
        = Except.ok (⟨cacheRecordVal (JSValue.obj flds) t,
            cacheKey env.hash qt vars⟩, store))
    ∧ (checkCachedQueryIsFresh env.settings env.now (some t) = false →
      runCachingLogic env store doc qt vars
        = Except.ok (⟨JSValue.obj flds, cacheKey env.hash qt vars⟩,
            writeToNormalizedCache
              (writeToCache store (cacheKey env.hash qt vars)
                (some (JSValue.obj flds)) env.now)
              (env.normalize (storeGet flds "data"))))
    ∧ runCachingLogic env [] doc qt vars
        = Except.ok (⟨JSValue.obj flds, cacheKey env.hash qt vars⟩,
            writeToNormalizedCache
              (writeToCache [] (cacheKey env.hash qt vars)
                (some (JSValue.obj flds)) env.now)
              (env.normalize (storeGet flds "data")))
    ∧ jsonStringify (cacheRecordVal (JSValue.obj flds) t)
        ≠ jsonStringify (JSValue.obj flds) := by
  have hfalsy : jsFalsyV (cacheRecordVal (JSValue.obj flds) t) = false := rfl
  have hlast : lastApiCallOf (cacheRecordVal (JSValue.obj flds) t) = some t := rfl
  have hbg : (env.settings.cacheMethod == some "cache-network") = false := by
    rw [hm]
    rfl
  refine ⟨?_, ?_, ?_, jsonStringify_record_ne (JSValue.obj flds) t⟩
  · intro hfresh
    unfold runCachingLogic
    rw [hr "ROOT_QUERY"]
    simp only [Bool.false_eq_true, if_false, bypassCheck_metaParseAST,
      checkQueryExists, hr, hs, hfalsy, hlast, hfresh, hbg, Bool.not_false,
      Bool.true_and, if_true]
  · intro hstale
    unfold runCachingLogic
    rw [hr "ROOT_QUERY"]
    simp only [Bool.false_eq_true, if_false, bypassCheck_metaParseAST,
      checkQueryExists, hr, hs, hfalsy, hlast, hstale, Bool.not_false,
      Bool.true_and, Bool.and_false, missPath, executeAndUpdate, executeQuery,
      hf, objFields]
  · unfold runCachingLogic
    rw [hr "ROOT_QUERY"]
    simp only [Bool.false_eq_true, if_false, bypassCheck_metaParseAST,
      checkQueryExists, hr, storeGet, missPath, executeAndUpdate, executeQuery,
      hf, objFields]

/-- Fresh-hit environment used to witness C10 (no expiration limit, so the
record at `lastApiCall = 10` is fresh at `now = 50`). -/
def exEnvC10 : RunEnv :=
  ⟨⟨["ep"], none, some "cache-first", none, []⟩, "ep", fun s => s, fun _ => ⟨[], []⟩,
    Except.ok (JSValue.obj []), 50, fun _ => false⟩

/-- Store holding the cache record for the witness operation. -/
def exStoreC10 : Store := [("qnull", cacheRecordVal (JSValue.obj []) 10)]

/-- Witness for C10 at the concrete fresh hit. -/
theorem cache_hit_serves_record_witness :
    runCachingLogic exEnvC10 exStoreC10 ⟨[]⟩ "q" JSValue.null
      = Except.ok (⟨cacheRecordVal (JSValue.obj []) 10,
          cacheKey exEnvC10.hash "q" JSValue.null⟩, exStoreC10)
    ∧ jsonStringify (cacheRecordVal (JSValue.obj []) 10)
        ≠ jsonStringify (JSValue.obj []) := by
  have h := cache_hit_serves_record exEnvC10 exStoreC10 ⟨[]⟩ "q" JSValue.null [] 10
    rfl (fun k => rfl) rfl rfl
  exact ⟨h.1 rfl, h.2.2.2⟩

end LoQL
